import Mathlib

/-!
# csv2html: a shallow embedding of `main.go`

The program reads delimited text, builds an HTML `<table>` fragment and hands
it to a page template; in serve mode it also answers `/watch` long polls.

Conventions of the embedding.

* A Go `string` is a byte sequence.  Here a string is the list of its Unicode
  characters (`GoString`), so the embedding covers the strings that are valid
  UTF-8; `len` counts the bytes of the UTF-8 encoding and `s[0]` is the first
  of those bytes.
* `strings.Builder` is the string accumulated so far; `WriteString` appends.
* Effects (opening the input, `csvReader.Read`, writes to `w`) are passed
  explicitly: `renderTemplate` returns an `Outcome` recording them.
-/

namespace Csv2Html

/-! ## Strings -/

/-- Go `string`, as the list of the characters of a valid UTF-8 text. -/
abbrev GoString := List Char

/-- Bytes of the UTF-8 encoding of a string. -/
def utf8Bytes (s : GoString) : List UInt8 :=
  s.flatMap String.utf8EncodeChar

/-- Go builtin `len(s)` on a string: the number of bytes. -/
def len (s : GoString) : Nat :=
  (utf8Bytes s).length

/-- Go `strings.HasPrefix`. -/
def HasPrefix (s pre : GoString) : Bool :=
  pre.isPrefixOf s

/-- Go `strings.HasSuffix`. -/
def HasSuffix (s suf : GoString) : Bool :=
  suf.isSuffixOf s

/-- Go `(*strings.Builder).WriteString`. -/
def WriteString (h : GoString) (s : GoString) : GoString :=
  h ++ s

/-- Go conversion `rune(b)` of a byte. -/
def rune (b : UInt8) : Char :=
  Char.ofNat b.toNat

/-! ## Flags (`main.go` lines 21-29) -/

/-- Command-line flags read by `renderTemplate` and `run`. -/
structure Flags where
  inputFile : GoString
  separator : GoString
  header : Bool
  detectLinks : Bool
  serve : GoString
  watch : Bool
deriving DecidableEq, Repr

/-- Flag defaults of `main.go` lines 22-28. -/
def defaultFlags : Flags :=
  { inputFile := [], separator := [], header := true, detectLinks := true,
    serve := [], watch := true }

/-! ## Delimiter resolution and validation (`renderTemplate`, lines 70-83) -/

/-- Lines 70-79 of `renderTemplate`: the string `comma`. -/
def resolveComma (inputFile separator : GoString) : GoString :=
  if separator = "".toList && HasSuffix inputFile ".tsv".toList then
    "\t".toList
  else if separator = "\\t".toList then
    "\t".toList
  else if separator ≠ "".toList then
    separator
  else
    ",".toList

/-- Lines 80-83 of `renderTemplate`: `none` is the `invalid separator` error,
`some r` is the rune stored in `csvReader.Comma`. -/
def checkComma (comma : GoString) : Option Char :=
  if len comma ≠ 1 then
    none
  else
    match utf8Bytes comma with
    | b :: _ => some (rune b)
    | [] => none

/-! ## The `encoding/csv` reader, as `renderTemplate` uses it

`csv.NewReader` and `(*csv.Reader).Read` belong to Go's standard library.  The
splitting of bytes into fields is kept abstract: an input source is given by
the records the tokenizer finds in it.  What `Read` does with a record once
it is tokenized (delimiter check, end of stream, field-count check) follows
the library. -/

/-- Errors returned by `(*csv.Reader).Read`. -/
inductive CsvError where
  /-- Go `io.EOF`: clean end of stream. -/
  | EOF
  /-- Go `errInvalidDelim`: "csv: invalid field or comment delimiter". -/
  | ErrInvalidDelim
  /-- Go `ErrFieldCount` (in a `ParseError`): "wrong number of fields". -/
  | ErrFieldCount
  /-- Any other failure of a record: a quoting `ParseError` or an error of the
  underlying byte reader. -/
  | Other (msg : GoString)
deriving DecidableEq, Repr

/-- One record as the tokenizer yields it: the fields found, and the failure
met while scanning it, if any. -/
structure RawRecord where
  fields : List GoString
  err : Option GoString
deriving DecidableEq, Repr

/-- Content of an input source (an `io.Reader`): for each delimiter, the
records the tokenizer finds in it, in order; the stream ends after the last
one. -/
abbrev Source := Char → List RawRecord

/-- State of a `csv.Reader`: the two fields of the Go struct that matter here,
the source, the number of records consumed and the number of `Read` calls. -/
structure Reader where
  Comma : Char
  FieldsPerRecord : Int
  src : Source
  pos : Nat
  calls : Nat

/-- Go `csv.NewReader`: comma delimiter, `FieldsPerRecord` left at zero. -/
def NewReader (r : Source) : Reader :=
  { Comma := ',', FieldsPerRecord := 0, src := r, pos := 0, calls := 0 }

/-- Assignment `csvReader.Comma = c` (line 83). -/
def Reader.setComma (r : Reader) (c : Char) : Reader :=
  { r with Comma := c }

/-- Go `validDelim` of `encoding/csv`; a `Char` is always a valid rune. -/
def validDelim (r : Char) : Bool :=
  r ≠ Char.ofNat 0 && r ≠ '"' && r ≠ '\r' && r ≠ '\n' && r ≠ Char.ofNat 0xFFFD

/-- Go `(*csv.Reader).Read` with `Comment` unset: the new reader state, the
record and the error.  In the library's order: an invalid delimiter gives
`errInvalidDelim`; an exhausted source gives `io.EOF`; otherwise the record is
returned with its own failure if it has one, and the field count is checked or
recorded: "If FieldsPerRecord is positive, Read requires each record to have
the given number of fields.  If FieldsPerRecord is 0, Read sets it to the
number of fields in the first record, so that future records must have the
same field count.  If FieldsPerRecord is negative, no check is made." -/
def Reader.Read (r : Reader) : Reader × List GoString × Option CsvError :=
  let r := { r with calls := r.calls + 1 }
  if r.Comma = Char.ofNat 0 || !validDelim r.Comma then
    (r, [], some CsvError.ErrInvalidDelim)
  else
    match (r.src r.Comma)[r.pos]? with
    | none => (r, [], some CsvError.EOF)
    | some rec =>
      let r := { r with pos := r.pos + 1 }
      let err := rec.err.map CsvError.Other
      if r.FieldsPerRecord > 0 then
        if (rec.fields.length : Int) ≠ r.FieldsPerRecord && err = none then
          (r, rec.fields, some CsvError.ErrFieldCount)
        else
          (r, rec.fields, err)
      else if r.FieldsPerRecord = 0 then
        ({ r with FieldsPerRecord := rec.fields.length }, rec.fields, err)
      else
        (r, rec.fields, err)

/-! ## Errors, environment and outcome of `renderTemplate` -/

/-- Errors of `renderTemplate`, one per `fmt.Errorf` context. -/
inductive RenderError where
  /-- Line 63: "open input file: %w". -/
  | openInputFile (cause : GoString)
  /-- Line 81: "invalid separator %q: must be exactly one UTF-8 rune". -/
  | invalidSeparator (separator : GoString)
  /-- Line 90: "read header row: %w". -/
  | readHeaderRow (cause : CsvError)
  /-- Line 102: "read row: %w". -/
  | readRow (cause : CsvError)
  /-- Line 143: "parse template: %w". -/
  | parseTemplate (cause : GoString)
  /-- Line 158: "execute template: %w". -/
  | executeTemplate (cause : GoString)
deriving DecidableEq, Repr

/-- Go struct `TemplateData` (lines 43-49). -/
structure TemplateData where
  Title : GoString
  CSS : GoString
  HTML : GoString
  JS : GoString
  WatchJS : GoString
deriving DecidableEq, Repr

/-- What `renderTemplate` takes from outside `main.go`: the standard input, the
file system (`os.Open`), the embedded assets (lines 31-41), `text/template`
(`Parse`, then `Execute` giving the bytes written and the error) and
`filepath.Base`. -/
structure Env where
  stdin : Source
  Open : GoString → Except GoString Source
  templateHTML : GoString
  styleCSS : GoString
  scriptJS : GoString
  watchJS : GoString
  Parse : GoString → Except GoString (TemplateData → GoString × Option GoString)
  Base : GoString → GoString

/-- Observable result of one call of `renderTemplate`: the returned error, the
bytes written to `w`, whether `os.Open` was called and how many times
`csvReader.Read` was called. -/
structure Outcome where
  err : Option RenderError
  written : GoString
  opened : Bool
  reads : Nat
deriving DecidableEq, Repr

/-! ## Reading the records (`renderTemplate`, lines 85-105) -/

/-- Lines 85-92: the header row is read only when the header flag is set. -/
def readHeader (header : Bool) (r : Reader) :
    Reader × Except RenderError (List GoString) :=
  if header then
    match r.Read with
    | (r1, _, some e) => (r1, Except.error (RenderError.readHeaderRow e))
    | (r1, headerRow, none) => (r1, Except.ok headerRow)
  else
    (r, Except.ok [])

/-- Lines 95-105: the loop reading the body rows, with a bound on the number
of iterations; `none` when the bound is reached before the loop ends. -/
def readRows : Nat → Reader → List (List GoString) →
    Option (Reader × Except RenderError (List (List GoString)))
  | 0, _, _ => none
  | fuel + 1, r, rows =>
    match r.Read with
    | (r1, _, some e) =>
      if e = CsvError.EOF then
        some (r1, Except.ok rows)
      else
        some (r1, Except.error (RenderError.readRow e))
    | (r1, row, none) => readRows fuel r1 (rows ++ [row])

/-- Iterations that always suffice for `readRows`: one per record still in the
source and one for the end of stream. -/
def Reader.bound (r : Reader) : Nat :=
  (r.src r.Comma).length - r.pos + 1

/-- Lines 85-105: the header row, then the body rows; `none` when the row loop
does not end within its bound. -/
def readTable (header : Bool) (r : Reader) :
    Option (Reader × Except RenderError (List GoString × List (List GoString))) :=
  match readHeader header r with
  | (r1, Except.error e) => some (r1, Except.error e)
  | (r1, Except.ok headerRow) =>
    match readRows r1.bound r1 [] with
    | none => none
    | some (r2, Except.error e) => some (r2, Except.error e)
    | some (r2, Except.ok rows) => some (r2, Except.ok (headerRow, rows))

/-! ## Building the table (`renderTemplate`, lines 108-138) -/

/-- Lines 113-117: body of the loop over the header cells. -/
def writeHeaderCell (h : GoString) (cell : GoString) : GoString :=
  let h := WriteString h "<th>".toList
  let h := WriteString h "<span class=\"header-cell-content\">".toList
  let h := WriteString h cell
  let h := WriteString h "</span>".toList
  WriteString h "</th>".toList

/-- Go `fmt.Sprintf` with the format of line 129: two `%s` verbs. -/
def sprintfAnchor (href text : GoString) : GoString :=
  "<a href=\"".toList ++ href ++ "\">".toList ++ text ++ "</a>".toList

/-- Lines 125-133: body of the loop over the cells of a body row. -/
def writeCell (detectLinks : Bool) (h : GoString) (cell : GoString) : GoString :=
  let display := cell
  let h := WriteString h "<td>".toList
  let display :=
    if detectLinks then
      if HasPrefix cell "http://".toList || HasPrefix cell "https://".toList then
        sprintfAnchor cell display
      else
        display
    else
      display
  let h := WriteString h display
  WriteString h "</td>".toList

/-- Lines 123-135: body of the loop over the body rows. -/
def writeRow (detectLinks : Bool) (h : GoString) (row : List GoString) : GoString :=
  let h := WriteString h "<tr>".toList
  let h := row.foldl (writeCell detectLinks) h
  WriteString h "</tr>".toList

/-- Lines 108-138: the HTML fragment `h.String()`. -/
def buildTable (header detectLinks : Bool) (headerRow : List GoString)
    (rows : List (List GoString)) : GoString :=
  let h : GoString := []
  let h := WriteString h "<table>".toList
  let h :=
    if header then
      let h := WriteString h "<thead>".toList
      let h := headerRow.foldl writeHeaderCell h
      WriteString h "</thead>".toList
    else
      h
  let h := WriteString h "<tbody>".toList
  let h := rows.foldl (writeRow detectLinks) h
  let h := WriteString h "</tbody>".toList
  WriteString h "</table>".toList

/-! ## `renderTemplate` (lines 58-161) -/

/-- Lines 145-156: the data handed to the template. -/
def templateData (fl : Flags) (env : Env) (html : GoString) : TemplateData :=
  let data : TemplateData :=
    { Title := "CSV to HTML".toList, CSS := env.styleCSS, HTML := html,
      JS := env.scriptJS, WatchJS := [] }
  let data := if fl.inputFile ≠ [] then { data with Title := env.Base fl.inputFile } else data
  if fl.serve ≠ [] && fl.inputFile ≠ [] && fl.watch then
    { data with WatchJS := env.watchJS }
  else
    data

/-- Lines 140-160: parse the page template and execute it on the data. -/
def renderPage (fl : Flags) (env : Env) (html : GoString) (opened : Bool) (reads : Nat) :
    Outcome :=
  match env.Parse env.templateHTML with
  | Except.error e =>
    { err := some (RenderError.parseTemplate e), written := [], opened := opened,
      reads := reads }
  | Except.ok tmpl =>
    match tmpl (templateData fl env html) with
    | (out, some e) =>
      { err := some (RenderError.executeTemplate e), written := out, opened := opened,
        reads := reads }
    | (out, none) => { err := none, written := out, opened := opened, reads := reads }

/-- Lines 59-67: the input source, and whether `os.Open` was called. -/
def openInput (fl : Flags) (env : Env) : Except GoString Source × Bool :=
  if fl.inputFile ≠ [] then
    (env.Open fl.inputFile, true)
  else
    (Except.ok env.stdin, false)

/-- Go `renderTemplate`; `none` when the row loop does not end within its
bound (`renderTemplate_returns` shows that this never happens). -/
def renderTemplate (fl : Flags) (env : Env) : Option Outcome :=
  match openInput fl env with
  | (Except.error e, opened) =>
    some { err := some (RenderError.openInputFile e), written := [], opened := opened,
           reads := 0 }
  | (Except.ok r, opened) =>
    let csvReader := NewReader r
    let comma := resolveComma fl.inputFile fl.separator
    match checkComma comma with
    | none =>
      some { err := some (RenderError.invalidSeparator fl.separator), written := [],
             opened := opened, reads := csvReader.calls }
    | some c =>
      let csvReader := csvReader.setComma c
      match readTable fl.header csvReader with
      | none => none
      | some (csvReader, Except.error e) =>
        some { err := some e, written := [], opened := opened, reads := csvReader.calls }
      | some (csvReader, Except.ok (headerRow, rows)) =>
        some (renderPage fl env (buildTable fl.header fl.detectLinks headerRow rows)
          opened csvReader.calls)

/-! ## The `/watch` handler (`run`, lines 183-223) -/

/-- Outcome of `os.Stat` on the input file (lines 199-212). -/
inductive StatResult where
  /-- The error satisfies `os.IsNotExist`. -/
  | notExist
  /-- Any other error. -/
  | failed (msg : GoString)
  /-- No error; `s.Size()` is the given `int64`. -/
  | info (size : Int)
deriving DecidableEq, Repr

/-- What one iteration of the `select` of line 195 receives. -/
inductive WatchEvent where
  /-- `<-watcher.Events`, with the outcome of the `os.Stat` that follows. -/
  | change (stat : StatResult)
  /-- `<-watcher.Errors`. -/
  | watcherError
  /-- `<-r.Context().Done()`. -/
  | done
deriving DecidableEq, Repr

/-- What the handler sends on the connection. -/
inductive Response where
  /-- `w.Write([]byte("OK"))` (line 214). -/
  | ok
  /-- `http.Error(w, msg, http.StatusInternalServerError)`. -/
  | error500
deriving DecidableEq, Repr

/-- State of the handler: inside the `for` loop, or returned. -/
inductive WatchState where
  | watching
  | returned
deriving DecidableEq, Repr

/-- One iteration of the loop of lines 194-222: the next state and what is
sent.  Once the handler has returned nothing more happens. -/
def watchStep (s : WatchState) (ev : WatchEvent) : WatchState × List Response :=
  match s with
  | WatchState.returned => (WatchState.returned, [])
  | WatchState.watching =>
    match ev with
    | WatchEvent.change stat =>
      match stat with
      | StatResult.notExist => (WatchState.watching, [])
      | StatResult.failed _ => (WatchState.returned, [Response.error500])
      | StatResult.info size =>
        if size = 0 then
          (WatchState.watching, [])
        else
          (WatchState.returned, [Response.ok])
    | WatchEvent.watcherError => (WatchState.returned, [Response.error500])
    | WatchEvent.done => (WatchState.returned, [])

/-- The loop run over a sequence of events, from a given state: the final
state and everything sent, in order. -/
def watchRun : WatchState → List WatchEvent → WatchState × List Response
  | s, [] => (s, [])
  | s, ev :: evs =>
    let (s1, out1) := watchStep s ev
    let (s2, out2) := watchRun s1 evs
    (s2, out1 ++ out2)

/-- The handler of lines 183-223: `fsnotify.NewWatcher` and `watcher.Add` may
fail (`true`), each with a 500 response; then the loop runs. -/
def watchHandler (newWatcherFails addFails : Bool) (evs : List WatchEvent) :
    WatchState × List Response :=
  if newWatcherFails then
    (WatchState.returned, [Response.error500])
  else if addFails then
    (WatchState.returned, [Response.error500])
  else
    watchRun WatchState.watching evs

/-! ## Sample inputs -/

/-- An environment for examples: the standard input holds the given records
under every delimiter, no file can be opened, and the page template writes the
table fragment alone. -/
def sampleEnv (records : List RawRecord) : Env :=
  { stdin := fun _ => records,
    Open := fun _ => Except.error "no such file or directory".toList,
    templateHTML := [], styleCSS := [], scriptJS := [], watchJS := [],
    Parse := fun _ => Except.ok (fun data => (data.HTML, none)),
    Base := fun name => name }

/-- A well-formed record with the given fields. -/
def record (fields : List String) : RawRecord :=
  { fields := fields.map String.toList, err := none }

/-! ## Reference definitions used to state the properties -/

/-- Markup of one header cell, as the specification words it: the field
wrapped in an inner span inside a `<th>` element. -/
def headerCellHtml (cell : GoString) : GoString :=
  "<th><span class=\"header-cell-content\">".toList ++ cell ++ "</span></th>".toList

/-- Content of one data cell, as the specification words it: an anchor whose
target and text are the raw cell when link detection is on and the cell starts
with `http://` or `https://`, the raw cell otherwise. -/
def cellContent (detectLinks : Bool) (cell : GoString) : GoString :=
  if detectLinks = true ∧ ("http://".toList <+: cell ∨ "https://".toList <+: cell) then
    "<a href=\"".toList ++ cell ++ "\">".toList ++ cell ++ "</a>".toList
  else
    cell

/-- Markup of one data cell: its content inside a `<td>` element. -/
def cellHtml (detectLinks : Bool) (cell : GoString) : GoString :=
  "<td>".toList ++ cellContent detectLinks cell ++ "</td>".toList

/-- Markup of one body row: one data cell per field, in order, inside a
`<tr>` element. -/
def rowHtml (detectLinks : Bool) (row : List GoString) : GoString :=
  "<tr>".toList ++ (row.map (cellHtml detectLinks)).flatten ++ "</tr>".toList

/-- Markup of the body section: one row element per body row, in order. -/
def bodyHtml (detectLinks : Bool) (rows : List (List GoString)) : GoString :=
  "<tbody>".toList ++ (rows.map (rowHtml detectLinks)).flatten ++ "</tbody>".toList

/-- Delimiter resolution as the specification words it, arranged by the
separator given: none (infer TAB from a `.tsv` name, else comma), the token
backslash-t (TAB), any other string (itself). -/
def delimiterReference (inputFile separator : GoString) : GoString :=
  match separator with
  | [] => if ".tsv".toList <:+ inputFile then ['\t'] else [',']
  | ['\\', 't'] => ['\t']
  | c :: cs => c :: cs

/-- Number of positions of a string at which `pat` occurs. -/
def countOcc (pat : GoString) : GoString → Nat
  | [] => 0
  | c :: cs => (if pat.isPrefixOf (c :: cs) then 1 else 0) + countOcc pat cs

/-! ## The table builder in closed form -/

theorem writeHeaderCell_eq (h cell : GoString) :
    writeHeaderCell h cell = h ++ headerCellHtml cell := by
  simp [writeHeaderCell, headerCellHtml, WriteString, List.append_assoc]

theorem foldl_writeHeaderCell (headerRow : List GoString) (h : GoString) :
    headerRow.foldl writeHeaderCell h = h ++ (headerRow.map headerCellHtml).flatten := by
  induction headerRow generalizing h with
  | nil => simp
  | cons c cs ih => simp [ih, writeHeaderCell_eq, List.append_assoc]

theorem writeCell_eq (detectLinks : Bool) (h cell : GoString) :
    writeCell detectLinks h cell = h ++ cellHtml detectLinks cell := by
  cases detectLinks
  · simp [writeCell, cellHtml, cellContent, WriteString, List.append_assoc]
  · simp [writeCell, cellHtml, cellContent, WriteString, HasPrefix, sprintfAnchor,
      List.append_assoc]

theorem foldl_writeCell (detectLinks : Bool) (row : List GoString) (h : GoString) :
    row.foldl (writeCell detectLinks) h = h ++ (row.map (cellHtml detectLinks)).flatten := by
  induction row generalizing h with
  | nil => simp
  | cons c cs ih => simp [ih, writeCell_eq, List.append_assoc]

theorem writeRow_eq (detectLinks : Bool) (h : GoString) (row : List GoString) :
    writeRow detectLinks h row = h ++ rowHtml detectLinks row := by
  simp [writeRow, rowHtml, WriteString, foldl_writeCell, List.append_assoc]

theorem foldl_writeRow (detectLinks : Bool) (rows : List (List GoString)) (h : GoString) :
    rows.foldl (writeRow detectLinks) h = h ++ (rows.map (rowHtml detectLinks)).flatten := by
  induction rows generalizing h with
  | nil => simp
  | cons r rs ih => simp [ih, writeRow_eq, List.append_assoc]

theorem buildTable_header (detectLinks : Bool) (headerRow : List GoString)
    (rows : List (List GoString)) :
    buildTable true detectLinks headerRow rows =
      "<table>".toList ++ ("<thead>".toList ++ (headerRow.map headerCellHtml).flatten
        ++ "</thead>".toList) ++ bodyHtml detectLinks rows ++ "</table>".toList := by
  simp [buildTable, bodyHtml, WriteString, foldl_writeHeaderCell, foldl_writeRow,
    List.append_assoc]

theorem buildTable_noHeader (detectLinks : Bool) (headerRow : List GoString)
    (rows : List (List GoString)) :
    buildTable false detectLinks headerRow rows =
      "<table>".toList ++ bodyHtml detectLinks rows ++ "</table>".toList := by
  simp [buildTable, bodyHtml, WriteString, foldl_writeRow, List.append_assoc]


/-! ## Counting occurrences of a tag -/

theorem prefix_append_sep (pat x r : GoString) (c : Char) (hx : x ≠ [])
    (hc : c ∉ pat.tail) : pat <+: x ++ c :: r ↔ pat <+: x := by
  constructor
  · intro hp
    rcases Nat.le_total pat.length x.length with hle | hle
    · exact List.prefix_of_prefix_length_le hp (List.prefix_append x (c :: r)) hle
    · have hxp : x <+: pat :=
        List.prefix_of_prefix_length_le (List.prefix_append x (c :: r)) hp hle
      obtain ⟨t, rfl⟩ := hxp
      rw [List.prefix_append_right_inj] at hp
      cases t with
      | nil => simp
      | cons d ds =>
        exfalso
        rw [List.cons_prefix_cons] at hp
        cases x with
        | nil => exact hx rfl
        | cons y ys =>
          apply hc
          simp [hp.1]
  · intro hp
    exact hp.trans (List.prefix_append x (c :: r))

theorem countOcc_append_sep (pat x r : GoString) (c : Char) (hc : c ∉ pat.tail) :
    countOcc pat (x ++ c :: r) = countOcc pat x + countOcc pat (c :: r) := by
  induction x with
  | nil => simp [countOcc]
  | cons y ys ih =>
    have h := prefix_append_sep pat (y :: ys) r c (by simp) hc
    show (if pat.isPrefixOf (y :: (ys ++ c :: r)) then 1 else 0) + countOcc pat (ys ++ c :: r)
      = ((if pat.isPrefixOf (y :: ys) then 1 else 0) + countOcc pat ys) + countOcc pat (c :: r)
    rw [ih]
    simp only [List.cons_append] at h
    simp only [List.isPrefixOf_iff_prefix, h]
    omega


theorem countOcc_th_headerCell (cell rest : GoString)
    (h0 : countOcc "<th>".toList cell = 0) :
    countOcc "<th>".toList (headerCellHtml cell ++ rest)
      = 1 + countOcc "<th>".toList rest := by
  have h1 := countOcc_append_sep "<th>".toList cell ("/span></th>".toList ++ rest) '<'
    (by decide)
  simp only [String.toList] at h1 h0 ⊢
  simp [headerCellHtml, countOcc, List.isPrefixOf] at h1 ⊢
  rw [h1, h0]
  omega

theorem countOcc_th_headerCells (headerRow : List GoString) (rest : GoString)
    (h0 : ∀ cell ∈ headerRow, countOcc "<th>".toList cell = 0) :
    countOcc "<th>".toList ((headerRow.map headerCellHtml).flatten ++ rest)
      = 1 * headerRow.length + countOcc "<th>".toList rest := by
  induction headerRow with
  | nil => simp
  | cons c cs ih =>
    have hc := h0 c (by simp)
    have hcs := ih (fun x hx => h0 x (by simp [hx]))
    simp only [List.map_cons, List.flatten_cons, List.append_assoc, List.length_cons]
    rw [countOcc_th_headerCell c _ hc, hcs]
    omega

theorem countOcc_th_cell (detectLinks : Bool) (cell rest : GoString)
    (h0 : countOcc "<th>".toList cell = 0) :
    countOcc "<th>".toList (cellHtml detectLinks cell ++ rest)
      = countOcc "<th>".toList rest := by
  have h1 := countOcc_append_sep "<th>".toList cell ("/td>".toList ++ rest) '<' (by decide)
  have h2 := countOcc_append_sep "<th>".toList cell ("/a></td>".toList ++ rest) '<'
    (by decide)
  have h3 := countOcc_append_sep "<th>".toList cell
    (">".toList ++ (cell ++ ("</a></td>".toList ++ rest))) '"' (by decide)
  simp only [String.toList] at h1 h2 h3 h0 ⊢
  simp [countOcc, List.isPrefixOf] at h1 h2 h3
  unfold cellHtml cellContent
  split
  · simp [countOcc, List.isPrefixOf]
    rw [h3, h2, h0]
    omega
  · simp [countOcc, List.isPrefixOf]
    rw [h1, h0]
    omega

theorem countOcc_th_cells (detectLinks : Bool) (row : List GoString) (rest : GoString)
    (h0 : ∀ cell ∈ row, countOcc "<th>".toList cell = 0) :
    countOcc "<th>".toList ((row.map (cellHtml detectLinks)).flatten ++ rest)
      = countOcc "<th>".toList rest := by
  induction row with
  | nil => simp
  | cons c cs ih =>
    have hc := h0 c (by simp)
    have hcs := ih (fun x hx => h0 x (by simp [hx]))
    simp only [List.map_cons, List.flatten_cons, List.append_assoc]
    rw [countOcc_th_cell detectLinks c _ hc, hcs]

theorem countOcc_th_row (detectLinks : Bool) (row : List GoString) (rest : GoString)
    (h0 : ∀ cell ∈ row, countOcc "<th>".toList cell = 0) :
    countOcc "<th>".toList (rowHtml detectLinks row ++ rest)
      = 0 + countOcc "<th>".toList rest := by
  have h1 := countOcc_th_cells detectLinks row ("</tr>".toList ++ rest) h0
  simp only [String.toList] at h1 h0 ⊢
  simp [countOcc, List.isPrefixOf] at h1
  simp [rowHtml, countOcc, List.isPrefixOf]
  rw [h1]

theorem countOcc_th_rows (detectLinks : Bool) (rows : List (List GoString))
    (rest : GoString)
    (h0 : ∀ row ∈ rows, ∀ cell ∈ row, countOcc "<th>".toList cell = 0) :
    countOcc "<th>".toList ((rows.map (rowHtml detectLinks)).flatten ++ rest)
      = 0 * rows.length + countOcc "<th>".toList rest := by
  induction rows with
  | nil => simp
  | cons r rs ih =>
    have hr := h0 r (by simp)
    have hrs := ih (fun x hx => h0 x (by simp [hx]))
    simp only [List.map_cons, List.flatten_cons, List.append_assoc, List.length_cons]
    rw [countOcc_th_row detectLinks r _ hr, hrs]
    omega

theorem countOcc_th_table (detectLinks : Bool) (headerRow : List GoString)
    (rows : List (List GoString))
    (hh : ∀ cell ∈ headerRow, countOcc "<th>".toList cell = 0)
    (hr : ∀ row ∈ rows, ∀ cell ∈ row, countOcc "<th>".toList cell = 0) :
    countOcc "<th>".toList (buildTable true detectLinks headerRow rows)
      = 1 * headerRow.length + 0 * rows.length := by
  have h1 := countOcc_th_headerCells headerRow
    ("</thead><tbody>".toList ++ ((rows.map (rowHtml detectLinks)).flatten
      ++ "</tbody></table>".toList)) hh
  have h2 := countOcc_th_rows detectLinks rows "</tbody></table>".toList hr
  rw [buildTable_header]
  simp only [String.toList] at h1 h2 ⊢
  simp [countOcc, List.isPrefixOf] at h1 h2
  simp [bodyHtml, countOcc, List.isPrefixOf]
  rw [h1, h2]
  all_goals omega

theorem countOcc_tr_headerCell (cell rest : GoString)
    (h0 : countOcc "<tr>".toList cell = 0) :
    countOcc "<tr>".toList (headerCellHtml cell ++ rest)
      = 0 + countOcc "<tr>".toList rest := by
  have h1 := countOcc_append_sep "<tr>".toList cell ("/span></th>".toList ++ rest) '<'
    (by decide)
  simp only [String.toList] at h1 h0 ⊢
  simp [headerCellHtml, countOcc, List.isPrefixOf] at h1 ⊢
  rw [h1, h0]
  omega

theorem countOcc_tr_headerCells (headerRow : List GoString) (rest : GoString)
    (h0 : ∀ cell ∈ headerRow, countOcc "<tr>".toList cell = 0) :
    countOcc "<tr>".toList ((headerRow.map headerCellHtml).flatten ++ rest)
      = 0 * headerRow.length + countOcc "<tr>".toList rest := by
  induction headerRow with
  | nil => simp
  | cons c cs ih =>
    have hc := h0 c (by simp)
    have hcs := ih (fun x hx => h0 x (by simp [hx]))
    simp only [List.map_cons, List.flatten_cons, List.append_assoc, List.length_cons]
    rw [countOcc_tr_headerCell c _ hc, hcs]
    omega

theorem countOcc_tr_cell (detectLinks : Bool) (cell rest : GoString)
    (h0 : countOcc "<tr>".toList cell = 0) :
    countOcc "<tr>".toList (cellHtml detectLinks cell ++ rest)
      = countOcc "<tr>".toList rest := by
  have h1 := countOcc_append_sep "<tr>".toList cell ("/td>".toList ++ rest) '<' (by decide)
  have h2 := countOcc_append_sep "<tr>".toList cell ("/a></td>".toList ++ rest) '<'
    (by decide)
  have h3 := countOcc_append_sep "<tr>".toList cell
    (">".toList ++ (cell ++ ("</a></td>".toList ++ rest))) '"' (by decide)
  simp only [String.toList] at h1 h2 h3 h0 ⊢
  simp [countOcc, List.isPrefixOf] at h1 h2 h3
  unfold cellHtml cellContent
  split
  · simp [countOcc, List.isPrefixOf]
    rw [h3, h2, h0]
    omega
  · simp [countOcc, List.isPrefixOf]
    rw [h1, h0]
    omega

theorem countOcc_tr_cells (detectLinks : Bool) (row : List GoString) (rest : GoString)
    (h0 : ∀ cell ∈ row, countOcc "<tr>".toList cell = 0) :
    countOcc "<tr>".toList ((row.map (cellHtml detectLinks)).flatten ++ rest)
      = countOcc "<tr>".toList rest := by
  induction row with
  | nil => simp
  | cons c cs ih =>
    have hc := h0 c (by simp)
    have hcs := ih (fun x hx => h0 x (by simp [hx]))
    simp only [List.map_cons, List.flatten_cons, List.append_assoc]
    rw [countOcc_tr_cell detectLinks c _ hc, hcs]

theorem countOcc_tr_row (detectLinks : Bool) (row : List GoString) (rest : GoString)
    (h0 : ∀ cell ∈ row, countOcc "<tr>".toList cell = 0) :
    countOcc "<tr>".toList (rowHtml detectLinks row ++ rest)
      = 1 + countOcc "<tr>".toList rest := by
  have h1 := countOcc_tr_cells detectLinks row ("</tr>".toList ++ rest) h0
  simp only [String.toList] at h1 h0 ⊢
  simp [countOcc, List.isPrefixOf] at h1
  simp [rowHtml, countOcc, List.isPrefixOf]
  rw [h1]

theorem countOcc_tr_rows (detectLinks : Bool) (rows : List (List GoString))
    (rest : GoString)
    (h0 : ∀ row ∈ rows, ∀ cell ∈ row, countOcc "<tr>".toList cell = 0) :
    countOcc "<tr>".toList ((rows.map (rowHtml detectLinks)).flatten ++ rest)
      = 1 * rows.length + countOcc "<tr>".toList rest := by
  induction rows with
  | nil => simp
  | cons r rs ih =>
    have hr := h0 r (by simp)
    have hrs := ih (fun x hx => h0 x (by simp [hx]))
    simp only [List.map_cons, List.flatten_cons, List.append_assoc, List.length_cons]
    rw [countOcc_tr_row detectLinks r _ hr, hrs]
    omega

theorem countOcc_tr_table (detectLinks : Bool) (headerRow : List GoString)
    (rows : List (List GoString))
    (hh : ∀ cell ∈ headerRow, countOcc "<tr>".toList cell = 0)
    (hr : ∀ row ∈ rows, ∀ cell ∈ row, countOcc "<tr>".toList cell = 0) :
    countOcc "<tr>".toList (buildTable true detectLinks headerRow rows)
      = 0 * headerRow.length + 1 * rows.length := by
  have h1 := countOcc_tr_headerCells headerRow
    ("</thead><tbody>".toList ++ ((rows.map (rowHtml detectLinks)).flatten
      ++ "</tbody></table>".toList)) hh
  have h2 := countOcc_tr_rows detectLinks rows "</tbody></table>".toList hr
  rw [buildTable_header]
  simp only [String.toList] at h1 h2 ⊢
  simp [countOcc, List.isPrefixOf] at h1 h2
  simp [bodyHtml, countOcc, List.isPrefixOf]
  rw [h1, h2]

/-! ## The reader -/

theorem validDelim_ne_zero (c : Char) (hv : validDelim c = true) : c ≠ Char.ofNat 0 := by
  intro h
  subst h
  revert hv
  decide

theorem Read_eof (r : Reader) (hv : validDelim r.Comma = true)
    (hp : (r.src r.Comma)[r.pos]? = none) :
    r.Read = ({ r with calls := r.calls + 1 }, [], some CsvError.EOF) := by
  have h0 := validDelim_ne_zero r.Comma hv
  simp [Reader.Read, hv, h0, hp]

theorem Read_invalidDelim (r : Reader) (hv : validDelim r.Comma = false) :
    r.Read = ({ r with calls := r.calls + 1 }, [], some CsvError.ErrInvalidDelim) := by
  simp [Reader.Read, hv]

theorem Read_good (r : Reader) (x : RawRecord) (hv : validDelim r.Comma = true)
    (hp : (r.src r.Comma)[r.pos]? = some x) (he : x.err = none)
    (hf : r.FieldsPerRecord = x.fields.length ∨ r.FieldsPerRecord = 0) :
    r.Read = ({ r with calls := r.calls + 1, pos := r.pos + 1,
                       FieldsPerRecord := x.fields.length }, x.fields, none) := by
  have h0 := validDelim_ne_zero r.Comma hv
  rcases r with ⟨cm, fpr, src, pos, calls⟩
  simp only at hv hp hf h0
  rcases hf with hf | hf
  · subst hf
    by_cases hpos : (0 : Int) < x.fields.length
    · simp [Reader.Read, hv, h0, hp, he, hpos]
    · have hz : (x.fields.length : Int) = 0 := by omega
      simp [Reader.Read, hv, h0, hp, he, hz]
  · subst hf
    simp [Reader.Read, hv, h0, hp, he]

theorem Read_mismatch (r : Reader) (x : RawRecord) (hv : validDelim r.Comma = true)
    (hp : (r.src r.Comma)[r.pos]? = some x) (he : x.err = none)
    (hpos : 0 < r.FieldsPerRecord) (hne : (x.fields.length : Int) ≠ r.FieldsPerRecord) :
    r.Read = ({ r with calls := r.calls + 1, pos := r.pos + 1 }, x.fields,
      some CsvError.ErrFieldCount) := by
  have h0 := validDelim_ne_zero r.Comma hv
  simp [Reader.Read, hv, h0, hp, he, hpos, hne]

/-- What a successful `Read` tells: the record consumed and the new state. -/
theorem Read_ok_inv (r r1 : Reader) (row : List GoString)
    (h : r.Read = (r1, row, none)) :
    validDelim r.Comma = true ∧ r1.src = r.src ∧ r1.Comma = r.Comma ∧ r1.pos = r.pos + 1 ∧
      r1.calls = r.calls + 1 ∧
      ∃ x, (r.src r.Comma)[r.pos]? = some x ∧ x.fields = row ∧ x.err = none := by
  have hv : validDelim r.Comma = true := by
    by_contra hv
    rw [Read_invalidDelim r (by simpa using hv)] at h
    simp at h
  refine ⟨hv, ?_⟩
  have h0 := validDelim_ne_zero r.Comma hv
  cases hp : (r.src r.Comma)[r.pos]? with
  | none =>
    rw [Read_eof r hv hp] at h
    simp at h
  | some x =>
    simp only [Reader.Read, hv, h0, hp] at h
    simp only [Bool.not_true, Bool.or_false, decide_False, Bool.false_eq_true, if_false] at h
    split_ifs at h <;> simp at h <;> obtain ⟨h1, h2, h3⟩ := h <;> subst h1 <;>
      simp [h2, h3]

/-- What an end of stream tells: the delimiter is valid and nothing is left. -/
theorem Read_eof_inv (r r1 : Reader) (row : List GoString)
    (h : r.Read = (r1, row, some CsvError.EOF)) :
    validDelim r.Comma = true ∧ (r.src r.Comma)[r.pos]? = none ∧
      r1.calls = r.calls + 1 := by
  have hv : validDelim r.Comma = true := by
    by_contra hv
    rw [Read_invalidDelim r (by simpa using hv)] at h
    simp at h
  refine ⟨hv, ?_⟩
  have h0 := validDelim_ne_zero r.Comma hv
  cases hp : (r.src r.Comma)[r.pos]? with
  | none =>
    rw [Read_eof r hv hp] at h
    simp at h
    simp [← h.1]
  | some x =>
    exfalso
    simp only [Reader.Read, hv, h0, hp] at h
    simp only [Bool.not_true, Bool.or_false, decide_False, Bool.false_eq_true, if_false] at h
    split_ifs at h <;> simp at h

/-- Every `Read` counts as one call. -/
theorem Read_calls (r : Reader) : r.Read.1.calls = r.calls + 1 := by
  unfold Reader.Read
  simp only
  split_ifs <;> first | rfl | (split <;> first | rfl | (split_ifs <;> rfl))


/-! ## The row loop -/

/-- The row loop ends within its bound. -/
theorem readRows_isSome (fuel : Nat) (r : Reader) (rows : List (List GoString))
    (hf : (r.src r.Comma).length - r.pos < fuel) :
    ∃ res, readRows fuel r rows = some res := by
  induction fuel generalizing r rows with
  | zero => omega
  | succ n ih =>
    unfold readRows
    rcases hR : r.Read with ⟨r1, row, e⟩
    cases e with
    | some e =>
      simp only
      split_ifs <;> exact ⟨_, rfl⟩
    | none =>
      simp only
      obtain ⟨-, hs, hc, hp, -, x, hx, -, -⟩ := Read_ok_inv r r1 row hR
      apply ih
      rw [hs, hc, hp]
      have hlt : r.pos < (r.src r.Comma).length := by
        by_contra hge
        rw [List.getElem?_eq_none (by omega)] at hx
        simp at hx
      omega

theorem readTable_isSome (header : Bool) (r : Reader) :
    ∃ res, readTable header r = some res := by
  unfold readTable
  rcases readHeader header r with ⟨r1, e | headerRow⟩
  · exact ⟨_, rfl⟩
  · simp only
    obtain ⟨⟨r2, e | rows⟩, h⟩ := readRows_isSome r1.bound r1 []
      (by unfold Reader.bound; omega)
    · rw [h]; exact ⟨_, rfl⟩
    · rw [h]; exact ⟨_, rfl⟩

/-- Go `renderTemplate` always returns. -/
theorem renderTemplate_returns (fl : Flags) (env : Env) :
    ∃ o, renderTemplate fl env = some o := by
  unfold renderTemplate
  rcases openInput fl env with ⟨e | src, opened⟩
  · exact ⟨_, rfl⟩
  · simp only
    cases checkComma (resolveComma fl.inputFile fl.separator) with
    | none => exact ⟨_, rfl⟩
    | some c =>
      simp only
      obtain ⟨⟨r2, e | ⟨headerRow, rows⟩⟩, h⟩ :=
        readTable_isSome fl.header ((NewReader src).setComma c)
      · rw [h]; exact ⟨_, rfl⟩
      · rw [h]; exact ⟨_, rfl⟩

theorem drop_cons_inv {α : Type} (l : List α) (pos : Nat) (x : α) (xs : List α)
    (h : l.drop pos = x :: xs) : l[pos]? = some x ∧ l.drop (pos + 1) = xs := by
  constructor
  · rw [← List.head?_drop, h]
    rfl
  · rw [← List.tail_drop, h]
    rfl

theorem drop_nil_inv {α : Type} (l : List α) (pos : Nat) (h : l.drop pos = []) :
    l[pos]? = none := by
  rw [← List.head?_drop, h]
  rfl

/-- First element with a property: the list splits around it. -/
theorem exists_first {α : Type} (p : α → Prop) (l : List α) (h : ∃ x ∈ l, p x) :
    ∃ good bad tail, l = good ++ bad :: tail ∧ (∀ g ∈ good, ¬ p g) ∧ p bad := by
  induction l with
  | nil => simp at h
  | cons a as ih =>
    by_cases ha : p a
    · exact ⟨[], a, as, rfl, by simp, ha⟩
    · have h2 : ∃ x ∈ as, p x := by
        obtain ⟨x, hx, hpx⟩ := h
        rcases List.mem_cons.mp hx with rfl | hx
        · exact absurd hpx ha
        · exact ⟨x, hx, hpx⟩
      obtain ⟨good, bad, tail, rfl, hg, hb⟩ := ih h2
      refine ⟨a :: good, bad, tail, rfl, ?_, hb⟩
      intro g hgm
      rcases List.mem_cons.mp hgm with rfl | hgm
      · exact ha
      · exact hg g hgm

/-- Records that are well formed and all of one length are all read. -/
theorem readRows_uniform (n : Nat) (rest : List RawRecord) :
    ∀ (fuel : Nat) (r : Reader) (rows : List (List GoString)),
      validDelim r.Comma = true → (r.src r.Comma).drop r.pos = rest →
      (∀ x ∈ rest, x.err = none ∧ x.fields.length = n) →
      (r.FieldsPerRecord = n ∨ r.FieldsPerRecord = 0) →
      rest.length < fuel →
      ∃ r1, readRows fuel r rows = some (r1, Except.ok (rows ++ rest.map RawRecord.fields))
        ∧ r1.calls = r.calls + rest.length + 1 := by
  induction rest with
  | nil =>
    intro fuel r rows hv hd _ _ hfuel
    obtain ⟨k, rfl⟩ : ∃ k, fuel = k + 1 := ⟨fuel - 1, by simp at hfuel; omega⟩
    have hp := drop_nil_inv _ _ hd
    refine ⟨{ r with calls := r.calls + 1 }, ?_, by simp⟩
    simp [readRows, Read_eof r hv hp]
  | cons x xs ih =>
    intro fuel r rows hv hd hall hf hfuel
    obtain ⟨k, rfl⟩ : ∃ k, fuel = k + 1 := ⟨fuel - 1, by simp at hfuel; omega⟩
    obtain ⟨hp, hd1⟩ := drop_cons_inv _ _ _ _ hd
    obtain ⟨hxe, hxl⟩ := hall x (by simp)
    have hR := Read_good r x hv hp hxe (by rw [hxl]; exact hf)
    obtain ⟨r1, h1, h2⟩ := ih k
      { r with calls := r.calls + 1, pos := r.pos + 1, FieldsPerRecord := x.fields.length }
      (rows ++ [x.fields]) hv hd1 (fun y hy => hall y (by simp [hy]))
      (Or.inl (by simp [hxl])) (by simp at hfuel; omega)
    refine ⟨r1, ?_, ?_⟩
    · simp [readRows, hR, h1]
    · simp at h2
      simp [h2]
      omega

/-- The first record whose length differs from the expected one ends the loop
with a field-count error. -/
theorem readRows_mismatch (n : Nat) (hn : 0 < n) (bad : RawRecord) (tail : List RawRecord)
    (hbe : bad.err = none) (hbl : bad.fields.length ≠ n) (good : List RawRecord) :
    ∀ (fuel : Nat) (r : Reader) (rows : List (List GoString)),
      validDelim r.Comma = true → (r.src r.Comma).drop r.pos = good ++ bad :: tail →
      (∀ x ∈ good, x.err = none ∧ x.fields.length = n) →
      (r.FieldsPerRecord = n ∨ (r.FieldsPerRecord = 0 ∧ good ≠ [])) →
      good.length < fuel →
      ∃ r1, readRows fuel r rows
          = some (r1, Except.error (RenderError.readRow CsvError.ErrFieldCount))
        ∧ r1.calls = r.calls + good.length + 1 := by
  induction good with
  | nil =>
    intro fuel r rows hv hd _ hf hfuel
    obtain ⟨k, rfl⟩ : ∃ k, fuel = k + 1 := ⟨fuel - 1, by simp at hfuel; omega⟩
    obtain ⟨hp, -⟩ := drop_cons_inv _ _ _ _ hd
    have hfr : r.FieldsPerRecord = n := by
      rcases hf with hf | ⟨-, hf⟩
      · exact hf
      · exact absurd rfl hf
    have hR := Read_mismatch r bad hv hp hbe (by rw [hfr]; exact_mod_cast hn)
      (by rw [hfr]; exact_mod_cast hbl)
    refine ⟨{ r with calls := r.calls + 1, pos := r.pos + 1 }, ?_, by simp⟩
    simp [readRows, hR]
  | cons x xs ih =>
    intro fuel r rows hv hd hall hf hfuel
    obtain ⟨k, rfl⟩ : ∃ k, fuel = k + 1 := ⟨fuel - 1, by simp at hfuel; omega⟩
    obtain ⟨hp, hd1⟩ := drop_cons_inv _ _ _ _ hd
    obtain ⟨hxe, hxl⟩ := hall x (by simp)
    have hR := Read_good r x hv hp hxe
      (by rw [hxl]; rcases hf with hf | ⟨hf, -⟩
          · exact Or.inl hf
          · exact Or.inr hf)
    obtain ⟨r1, h1, h2⟩ := ih k
      { r with calls := r.calls + 1, pos := r.pos + 1, FieldsPerRecord := x.fields.length }
      (rows ++ [x.fields]) hv hd1 (fun y hy => hall y (by simp [hy]))
      (Or.inl (by simp [hxl])) (by simp at hfuel; omega)
    refine ⟨r1, ?_, ?_⟩
    · simp [readRows, hR, h1]
    · simp at h2
      simp [h2]
      omega

/-- A loop that ends normally met a valid delimiter and no failing record. -/
theorem readRows_ok_inv (fuel : Nat) :
    ∀ (r r1 : Reader) (rows rows1 : List (List GoString)),
      readRows fuel r rows = some (r1, Except.ok rows1) →
      validDelim r.Comma = true ∧ ∀ x ∈ (r.src r.Comma).drop r.pos, x.err = none := by
  induction fuel with
  | zero =>
    intro r r1 rows rows1 h
    simp [readRows] at h
  | succ k ih =>
    intro r r1 rows rows1 h
    unfold readRows at h
    rcases hR : r.Read with ⟨r2, row, e⟩
    rw [hR] at h
    cases e with
    | some e =>
      simp only at h
      split_ifs at h with he
      · subst he
        obtain ⟨hv, hp, -⟩ := Read_eof_inv r r2 row hR
        refine ⟨hv, ?_⟩
        have hlen : (r.src r.Comma).length ≤ r.pos := by
          by_contra hlt
          rw [List.getElem?_eq_getElem (by omega)] at hp
          simp at hp
        rw [List.drop_eq_nil_of_le hlen]
        simp
      · simp at h
    | none =>
      simp only at h
      obtain ⟨hv, hs, hc, hpos, -, x, hx, -, hxe⟩ := Read_ok_inv r r2 row hR
      obtain ⟨-, hrest⟩ := ih r2 r1 _ rows1 h
      refine ⟨hv, ?_⟩
      rw [hs, hc, hpos] at hrest
      have hlt : r.pos < (r.src r.Comma).length := by
        by_contra hge
        rw [List.getElem?_eq_none (by omega)] at hx
        simp at hx
      rw [List.drop_eq_getElem_cons hlt]
      intro y hy
      rcases List.mem_cons.mp hy with rfl | hy
      · rw [List.getElem?_eq_getElem hlt] at hx
        simp at hx
        rw [hx]
        exact hxe
      · exact hrest y hy

/-- An error of the row loop has the context "read row" and is not a clean
end of stream. -/
theorem readRows_error_inv (fuel : Nat) :
    ∀ (r r1 : Reader) (rows : List (List GoString)) (e : RenderError),
      readRows fuel r rows = some (r1, Except.error e) →
      ∃ c, e = RenderError.readRow c ∧ c ≠ CsvError.EOF := by
  induction fuel with
  | zero =>
    intro r r1 rows e h
    simp [readRows] at h
  | succ k ih =>
    intro r r1 rows e h
    unfold readRows at h
    rcases hR : r.Read with ⟨r2, row, c⟩
    rw [hR] at h
    cases c with
    | some c =>
      simp only at h
      split_ifs at h with he
      · simp at h
      · simp at h
        exact ⟨c, h.2.symm, he⟩
    | none =>
      simp only at h
      exact ih r2 r1 _ e h

/-! ## Reading the whole table -/

theorem newReader_setComma (src : Source) (c : Char) :
    (NewReader src).setComma c
      = { Comma := c, FieldsPerRecord := 0, src := src, pos := 0, calls := 0 } := rfl


theorem readTable_uniform_header (src : Source) (c : Char) (n : Nat) (first : RawRecord)
    (rest : List RawRecord) (hv : validDelim c = true) (hsrc : src c = first :: rest)
    (hall : ∀ x ∈ src c, x.err = none ∧ x.fields.length = n) :
    ∃ r1, readTable true ((NewReader src).setComma c)
        = some (r1, Except.ok (first.fields, rest.map RawRecord.fields))
      ∧ r1.calls = (src c).length + 1 := by
  rw [newReader_setComma]
  obtain ⟨hfe, hfl⟩ := hall first (by simp [hsrc])
  have hR := Read_good { Comma := c, FieldsPerRecord := 0, src := src, pos := 0, calls := 0 }
    first hv (by simp [hsrc]) hfe (Or.inr rfl)
  obtain ⟨r1, h1, h2⟩ := readRows_uniform n rest ((src c).length - (0 + 1) + 1)
    { Comma := c, FieldsPerRecord := first.fields.length, src := src, pos := 0 + 1,
      calls := 0 + 1 } []
    hv (by simp [hsrc])
    (fun x hx => hall x (by simp [hsrc, hx])) (Or.inl (by simp [hfl]))
    (by simp [hsrc])
  refine ⟨r1, ?_, ?_⟩
  · simp only [readTable, readHeader, if_true, hR, Reader.bound]
    rw [h1]
    simp
  · simp at h2
    simp [h2, hsrc]
    omega

theorem readTable_uniform_noHeader (src : Source) (c : Char) (n : Nat)
    (hv : validDelim c = true)
    (hall : ∀ x ∈ src c, x.err = none ∧ x.fields.length = n) :
    ∃ r1, readTable false ((NewReader src).setComma c)
        = some (r1, Except.ok ([], (src c).map RawRecord.fields))
      ∧ r1.calls = (src c).length + 1 := by
  rw [newReader_setComma]
  obtain ⟨r1, h1, h2⟩ := readRows_uniform n (src c) ((src c).length - 0 + 1)
    { Comma := c, FieldsPerRecord := 0, src := src, pos := 0, calls := 0 } [] hv (by simp)
    hall (Or.inr rfl) (by omega)
  refine ⟨r1, ?_, ?_⟩
  · simp only [readTable, readHeader, Reader.bound, Bool.false_eq_true, if_false]
    rw [h1]
    simp
  · simp at h2
    simp [h2]

theorem readTable_mismatch (header : Bool) (src : Source) (c : Char) (first : RawRecord)
    (rest : List RawRecord) (hv : validDelim c = true) (hsrc : src c = first :: rest)
    (hwf : ∀ x ∈ src c, x.err = none) (hpos : 0 < first.fields.length)
    (hrag : ∃ x ∈ rest, x.fields.length ≠ first.fields.length) :
    ∃ r1, readTable header ((NewReader src).setComma c)
        = some (r1, Except.error (RenderError.readRow CsvError.ErrFieldCount))
      ∧ r1.calls ≤ (src c).length := by
  rw [newReader_setComma]
  obtain ⟨good, bad, tail, hrest, hgood, hbad⟩ :=
    exists_first (fun x : RawRecord => x.fields.length ≠ first.fields.length) rest hrag
  have hfe := hwf first (by simp [hsrc])
  have hbe := hwf bad (by simp [hsrc, hrest])
  have hg : ∀ x ∈ good, x.err = none ∧ x.fields.length = first.fields.length := by
    intro x hx
    refine ⟨hwf x (by simp [hsrc, hrest, hx]), ?_⟩
    have := hgood x hx
    simpa using this
  cases header with
  | true =>
    have hR := Read_good
      { Comma := c, FieldsPerRecord := 0, src := src, pos := 0, calls := 0 }
      first hv (by simp [hsrc]) hfe (Or.inr rfl)
    obtain ⟨r1, h1, h2⟩ := readRows_mismatch first.fields.length hpos bad tail hbe hbad good
      ((src c).length - (0 + 1) + 1)
      { Comma := c, FieldsPerRecord := first.fields.length, src := src, pos := 0 + 1,
        calls := 0 + 1 } []
      hv (by simp [hsrc, hrest]) hg (Or.inl rfl) (by simp [hsrc, hrest]; omega)
    refine ⟨r1, ?_, ?_⟩
    · simp only [readTable, readHeader, if_true, hR, Reader.bound]
      rw [h1]
    · simp at h2
      simp [h2, hsrc, hrest]
      omega
  | false =>
    obtain ⟨r1, h1, h2⟩ := readRows_mismatch first.fields.length hpos bad tail hbe hbad
      (first :: good) ((src c).length - 0 + 1)
      { Comma := c, FieldsPerRecord := 0, src := src, pos := 0, calls := 0 } []
      hv (by simp [hsrc, hrest])
      (by
        intro x hx
        rcases List.mem_cons.mp hx with rfl | hx
        · exact ⟨hfe, rfl⟩
        · exact hg x hx)
      (Or.inr ⟨rfl, by simp⟩) (by simp [hsrc, hrest]; omega)
    refine ⟨r1, ?_, ?_⟩
    · simp only [readTable, readHeader, Reader.bound, Bool.false_eq_true, if_false]
      rw [h1]
    · simp at h2
      simp [h2, hsrc, hrest]

theorem readTable_invalidDelim (header : Bool) (src : Source) (c : Char)
    (hv : validDelim c = false) :
    ∃ r1 e, readTable header ((NewReader src).setComma c)
      = some (r1, Except.error e) := by
  rw [newReader_setComma]
  have hR := Read_invalidDelim
    { Comma := c, FieldsPerRecord := 0, src := src, pos := 0, calls := 0 } hv
  cases header with
  | true =>
    refine ⟨{ Comma := c, FieldsPerRecord := 0, src := src, pos := 0, calls := 0 + 1 },
      RenderError.readHeaderRow CsvError.ErrInvalidDelim, ?_⟩
    simp [readTable, readHeader, hR]
  | false =>
    refine ⟨{ Comma := c, FieldsPerRecord := 0, src := src, pos := 0, calls := 0 + 1 },
      RenderError.readRow CsvError.ErrInvalidDelim, ?_⟩
    simp [readTable, readHeader, Reader.bound, readRows, hR]

/-- Reading a table that holds a failing record ends with an error. -/
theorem readTable_bad_record (header : Bool) (src : Source) (c : Char)
    (hbad : ∃ x ∈ src c, x.err ≠ none) :
    ∃ r1 e, readTable header ((NewReader src).setComma c)
      = some (r1, Except.error e) := by
  rw [newReader_setComma]
  obtain ⟨⟨r1, e | ⟨headerRow, rows⟩⟩, h⟩ :=
    readTable_isSome header
      { Comma := c, FieldsPerRecord := 0, src := src, pos := 0, calls := 0 }
  · exact ⟨r1, e, h⟩
  · exfalso
    obtain ⟨x, hx, hxe⟩ := hbad
    apply hxe
    unfold readTable at h
    cases header with
    | true =>
      simp only [readHeader, if_true] at h
      rcases hR : Reader.Read
        { Comma := c, FieldsPerRecord := 0, src := src, pos := 0, calls := 0 }
        with ⟨r2, row, e⟩
      rw [hR] at h
      cases e with
      | some e => simp at h
      | none =>
        simp only at h
        obtain ⟨hv, hs, hc, hp, -, y, hy, -, hye⟩ := Read_ok_inv _ r2 row hR
        rcases hL : readRows r2.bound r2 [] with _ | ⟨r3, e | rows3⟩
        · rw [hL] at h; simp at h
        · rw [hL] at h; simp at h
        · obtain ⟨-, hrest⟩ := readRows_ok_inv _ r2 r3 [] rows3 hL
          rw [hs, hc, hp] at hrest
          simp only at hrest hy
          cases hsrc : src c with
          | nil => rw [hsrc] at hx; simp at hx
          | cons a as =>
            rw [hsrc] at hx hy hrest
            simp at hy hrest
            rcases List.mem_cons.mp hx with rfl | hx
            · rw [hy]; exact hye
            · exact hrest x hx
    | false =>
      simp only [readHeader, Bool.false_eq_true, if_false] at h
      rcases hL : readRows
        (Reader.bound { Comma := c, FieldsPerRecord := 0, src := src, pos := 0, calls := 0 })
        { Comma := c, FieldsPerRecord := 0, src := src, pos := 0, calls := 0 } []
        with _ | ⟨r3, e | rows3⟩
      · simp [hL] at h
      · simp [hL] at h
      · obtain ⟨-, hrest⟩ := readRows_ok_inv _ _ r3 [] rows3 hL
        simp only [List.drop_zero] at hrest
        exact hrest x hx

/-- An error of the reading phase has the context "read header row" or "read
row". -/
theorem readTable_error_inv (header : Bool) (r r1 : Reader) (e : RenderError)
    (h : readTable header r = some (r1, Except.error e)) :
    ∃ k, e = RenderError.readHeaderRow k ∨ (e = RenderError.readRow k ∧ k ≠ CsvError.EOF) := by
  unfold readTable at h
  rcases hH : readHeader header r with ⟨r2, e2 | headerRow⟩
  · rw [hH] at h
    simp at h
    unfold readHeader at hH
    split_ifs at hH
    · rcases hR : r.Read with ⟨r3, row, k⟩
      rw [hR] at hH
      cases k with
      | some k =>
        simp at hH
        exact ⟨k, Or.inl (by rw [← h.2, ← hH.2])⟩
      | none => simp at hH
    · simp at hH
  · rw [hH] at h
    simp only at h
    rcases hL : readRows r2.bound r2 [] with _ | ⟨r3, e3 | rows3⟩
    · simp [hL] at h
    · simp [hL] at h
      obtain ⟨k, hk, hne⟩ := readRows_error_inv _ r2 r3 [] e3 hL
      exact ⟨k, Or.inr ⟨by rw [← h.2, hk], hne⟩⟩
    · simp [hL] at h

/-- Go `renderTemplate` once the input is open and the delimiter accepted. -/
theorem renderTemplate_reading (fl : Flags) (env : Env) (src : Source) (opened : Bool)
    (c : Char) (hopen : openInput fl env = (Except.ok src, opened))
    (hcomma : checkComma (resolveComma fl.inputFile fl.separator) = some c) :
    renderTemplate fl env =
      match readTable fl.header ((NewReader src).setComma c) with
      | none => none
      | some (csvReader, Except.error e) =>
        some { err := some e, written := [], opened := opened, reads := csvReader.calls }
      | some (csvReader, Except.ok (headerRow, rows)) =>
        some (renderPage fl env (buildTable fl.header fl.detectLinks headerRow rows)
          opened csvReader.calls) := by
  simp only [renderTemplate, hopen, hcomma]

/-! ## Length of a delimiter -/

theorem len_cons (c : Char) (s : GoString) : len (c :: s) = c.utf8Size + len s := by
  simp [len, utf8Bytes]

theorem checkComma_of_length_ne_one (comma : GoString) (h : comma.length ≠ 1) :
    checkComma comma = none := by
  have hlen : len comma ≠ 1 := by
    match comma, h with
    | [], _ => simp [len, utf8Bytes]
    | [a], h => simp at h
    | a :: b :: t, _ =>
      rw [len_cons, len_cons]
      have ha := Char.utf8Size_pos a
      have hb := Char.utf8Size_pos b
      omega
  simp [checkComma, hlen]

/-! ## Cells and rows of the table -/

/-- C1: the loop body of lines 125-133 appends, after what the builder holds,
`<td>`, then the anchor `<a href="c">c</a>` when link detection is on and the
cell `c` starts with `http://` or `https://` and the cell `c` itself in every
other case, then `</td>`; a row's cells are emitted so one after the other. -/
theorem C1_cell_text (detectLinks : Bool) (h c : GoString) (row : List GoString) :
    writeCell detectLinks h c
        = h ++ "<td>".toList
            ++ (if detectLinks = true ∧ ("http://".toList <+: c ∨ "https://".toList <+: c) then
                  "<a href=\"".toList ++ c ++ "\">".toList ++ c ++ "</a>".toList
                else c)
            ++ "</td>".toList
      ∧ row.foldl (writeCell detectLinks) h
        = h ++ (row.map fun c =>
            "<td>".toList
              ++ (if detectLinks = true
                      ∧ ("http://".toList <+: c ∨ "https://".toList <+: c) then
                    "<a href=\"".toList ++ c ++ "\">".toList ++ c ++ "</a>".toList
                  else c)
              ++ "</td>".toList).flatten := by
  constructor
  · rw [writeCell_eq]
    simp [cellHtml, cellContent, List.append_assoc]
  · rw [foldl_writeCell]
    rfl

/-- C4: the delimiter computed by lines 70-79 is the one of the reference: TAB
for an empty separator and a `.tsv` file name, TAB for the token backslash-t,
the separator itself for any other non-empty separator, comma otherwise. -/
theorem C4_delimiter_resolution (inputFile separator : GoString) :
    resolveComma inputFile separator = delimiterReference inputFile separator := by
  unfold delimiterReference
  split
  · by_cases hs : ".tsv".toList <:+ inputFile
    · simp [resolveComma, HasSuffix, hs]
    · simp [resolveComma, HasSuffix, hs]
  · simp [resolveComma]
  · rename_i c cs hne
    have h1 : ¬ (c :: cs = "\\t".toList) := by
      intro h
      simp at h
      exact hne h.1 h.2
    simp only [String.toList] at h1
    simp [resolveComma, h1]

/-- C5 (the code at the failing input): line 80 rejects a delimiter exactly
when its UTF-8 encoding is not one byte long; a separator that is the single
character U+00E9 has two bytes, so it is rejected as an invalid separator
although it is exactly one rune. -/
theorem C5_one_rune_separator_rejected (env : Env) :
    (∀ comma : GoString, checkComma comma = none ↔ len comma ≠ 1)
      ∧ [Char.ofNat 0xE9].length = 1 ∧ len [Char.ofNat 0xE9] = 2
      ∧ renderTemplate { defaultFlags with separator := [Char.ofNat 0xE9] } env
        = some { err := some (RenderError.invalidSeparator [Char.ofNat 0xE9]),
                 written := [], opened := false, reads := 0 } := by
  refine ⟨?_, rfl, by decide, ?_⟩
  · intro comma
    constructor
    · intro h hlen
      unfold checkComma at h
      rw [if_neg (by simpa using hlen)] at h
      cases hb : utf8Bytes comma with
      | nil => simp [len, hb] at hlen
      | cons b bs => simp [hb] at h
    · intro hlen
      simp [checkComma, hlen]
  · have h : checkComma (resolveComma [] [Char.ofNat 0xE9]) = none := by decide
    simp only [renderTemplate, openInput, defaultFlags, h]
    simp [NewReader]

/-- C6 (counterexample): with the two-character separator `ab` and a named
input file that cannot be opened, the open is attempted and the result is the
"open input file" error, not the invalid-separator error. -/
theorem C6_open_precedes_validation :
    (resolveComma "missing.csv".toList "ab".toList).length ≠ 1
      ∧ renderTemplate
          { defaultFlags with inputFile := "missing.csv".toList, separator := "ab".toList }
          (sampleEnv [])
        = some { err := some (RenderError.openInputFile "no such file or directory".toList),
                 written := [], opened := true, reads := 0 } := by
  decide

/-- C6 (amended): when the resolved delimiter is not exactly one character and
the input source is available (standard input, or a named file that opened),
`renderTemplate` returns the invalid-separator error, writes nothing and calls
`Read` not once, whatever the source holds. -/
theorem C6_invalid_separator_before_read (fl : Flags) (env : Env) (src : Source)
    (opened : Bool)
    (hlen : (resolveComma fl.inputFile fl.separator).length ≠ 1)
    (hopen : openInput fl env = (Except.ok src, opened)) :
    renderTemplate fl env
      = some { err := some (RenderError.invalidSeparator fl.separator), written := [],
               opened := opened, reads := 0 } := by
  have h := checkComma_of_length_ne_one _ hlen
  simp only [renderTemplate, hopen, h]
  simp [NewReader]

/-- C6 (witness): the separator `ab` on standard input holding one record. -/
theorem C6_invalid_separator_before_read_witness :
    renderTemplate { defaultFlags with separator := "ab".toList }
        (sampleEnv [record ["a", "b"]])
      = some { err := some (RenderError.invalidSeparator "ab".toList), written := [],
               opened := false, reads := 0 } :=
  C6_invalid_separator_before_read { defaultFlags with separator := "ab".toList }
    (sampleEnv [record ["a", "b"]]) (fun _ => [record ["a", "b"]]) false
    (by decide) rfl

/-- C3 (counterexample): a header field that is the text `<th>` makes the
fragment hold two occurrences of `<th>` for one header field. -/
theorem C3_tag_inside_cell :
    countOcc "<th>".toList (buildTable true true ["<th>".toList] []) = 2
      ∧ countOcc "<th>".toList (buildTable true true ["<th>".toList] [])
        ≠ ["<th>".toList].length := by
  decide

/-- C3 (amended): with the header flag on and no cell holding the text `<th>`
or `<tr>`, the fragment holds as many `<th>` as header fields and as many
`<tr>` as body rows, and it is the header cells in input order followed by the
rows in input order, each row being its cells in input order. -/
theorem C3_tag_counts (detectLinks : Bool) (headerRow : List GoString)
    (rows : List (List GoString))
    (hth : ∀ cell ∈ headerRow ++ rows.flatten, countOcc "<th>".toList cell = 0)
    (htr : ∀ cell ∈ headerRow ++ rows.flatten, countOcc "<tr>".toList cell = 0) :
    countOcc "<th>".toList (buildTable true detectLinks headerRow rows) = headerRow.length
      ∧ countOcc "<tr>".toList (buildTable true detectLinks headerRow rows) = rows.length
      ∧ buildTable true detectLinks headerRow rows
        = "<table><thead>".toList ++ (headerRow.map headerCellHtml).flatten
            ++ "</thead><tbody>".toList
            ++ (rows.map fun row =>
                "<tr>".toList ++ (row.map (cellHtml detectLinks)).flatten
                  ++ "</tr>".toList).flatten
            ++ "</tbody></table>".toList := by
  refine ⟨?_, ?_, ?_⟩
  · rw [countOcc_th_table detectLinks headerRow rows
      (fun cell hc => hth cell (List.mem_append_left _ hc))
      (fun row hr cell hc => hth cell
        (List.mem_append_right _ (List.mem_flatten.mpr ⟨row, hr, hc⟩)))]
    omega
  · rw [countOcc_tr_table detectLinks headerRow rows
      (fun cell hc => htr cell (List.mem_append_left _ hc))
      (fun row hr cell hc => htr cell
        (List.mem_append_right _ (List.mem_flatten.mpr ⟨row, hr, hc⟩)))]
    omega
  · rw [buildTable_header]
    simp [bodyHtml, rowHtml, List.append_assoc]
    rfl

/-- C3 (witness): a header of two fields and two body rows, one with a link. -/
theorem C3_tag_counts_witness :
    countOcc "<th>".toList
        (buildTable true true ["name".toList, "url".toList]
          [["a".toList, "https://a.example".toList], ["b".toList, "-".toList]]) = 2
      ∧ countOcc "<tr>".toList
        (buildTable true true ["name".toList, "url".toList]
          [["a".toList, "https://a.example".toList], ["b".toList, "-".toList]]) = 2 :=
  ⟨(C3_tag_counts true ["name".toList, "url".toList]
      [["a".toList, "https://a.example".toList], ["b".toList, "-".toList]]
      (by decide) (by decide)).1,
   (C3_tag_counts true ["name".toList, "url".toList]
      [["a".toList, "https://a.example".toList], ["b".toList, "-".toList]]
      (by decide) (by decide)).2.1⟩

/-- C2 (counterexample): a header of two fields followed by a body row of one
field, both well formed: the second `Read` fails with the field-count error
and nothing is rendered. -/
theorem C2_ragged_row_rejected :
    (∀ x ∈ [record ["name", "url"], record ["only"]], x.err = none)
      ∧ renderTemplate defaultFlags (sampleEnv [record ["name", "url"], record ["only"]])
        = some { err := some (RenderError.readRow CsvError.ErrFieldCount), written := [],
                 opened := false, reads := 2 } := by
  decide

/-- C2 (amended): for a well-formed input read with a valid delimiter, (1) when
every record has as many fields as the first one, all records are read and the
page is rendered from them; (2) when some later record has fewer or more
fields than the first one, `renderTemplate` fails with the "read row" error
for a wrong number of fields and writes nothing; (3) the builder emits for a
row of k fields exactly k `<td>` cells, with no padding or truncation. -/
theorem C2_rows_of_one_length (fl : Flags) (env : Env) (src : Source) (opened : Bool)
    (c : Char) (first : RawRecord) (rest : List RawRecord)
    (hopen : openInput fl env = (Except.ok src, opened))
    (hcomma : checkComma (resolveComma fl.inputFile fl.separator) = some c)
    (hv : validDelim c = true)
    (hsrc : src c = first :: rest)
    (hwf : ∀ x ∈ src c, x.err = none) :
    ((∀ x ∈ rest, x.fields.length = first.fields.length) →
        renderTemplate fl env
          = some (renderPage fl env
              (if fl.header = true then
                buildTable true fl.detectLinks first.fields (rest.map RawRecord.fields)
              else
                buildTable false fl.detectLinks [] ((first :: rest).map RawRecord.fields))
              opened (rest.length + 2)))
      ∧ (0 < first.fields.length →
          (∃ x ∈ rest, x.fields.length ≠ first.fields.length) →
          ∃ o, renderTemplate fl env = some o
            ∧ o.err = some (RenderError.readRow CsvError.ErrFieldCount)
            ∧ o.written = [] ∧ o.reads ≤ rest.length + 1)
      ∧ (∀ (h : GoString) (row : List GoString),
          writeRow fl.detectLinks h row
              = h ++ "<tr>".toList
                  ++ (row.map fun cell =>
                      "<td>".toList ++ cellContent fl.detectLinks cell ++ "</td>".toList).flatten
                  ++ "</tr>".toList
            ∧ (row.map fun cell =>
                "<td>".toList ++ cellContent fl.detectLinks cell ++ "</td>".toList).length
              = row.length) := by
  refine ⟨?_, ?_, ?_⟩
  · intro hlen
    have hall : ∀ x ∈ src c, x.err = none ∧ x.fields.length = first.fields.length := by
      intro x hx
      refine ⟨hwf x hx, ?_⟩
      rw [hsrc] at hx
      rcases List.mem_cons.mp hx with rfl | hx
      · rfl
      · exact hlen x hx
    rw [renderTemplate_reading fl env src opened c hopen hcomma]
    cases hh : fl.header with
    | true =>
      obtain ⟨r1, h1, h2⟩ :=
        readTable_uniform_header src c first.fields.length first rest hv hsrc hall
      rw [h1]
      simp [h2, hsrc]
    | false =>
      obtain ⟨r1, h1, h2⟩ := readTable_uniform_noHeader src c first.fields.length hv hall
      rw [h1]
      simp [h2, hsrc]
  · intro hpos hrag
    obtain ⟨r1, h1, h2⟩ := readTable_mismatch fl.header src c first rest hv hsrc hwf hpos hrag
    rw [renderTemplate_reading fl env src opened c hopen hcomma, h1]
    refine ⟨_, rfl, rfl, rfl, ?_⟩
    simp only [hsrc, List.length_cons] at h2
    exact h2
  · intro h row
    refine ⟨?_, by simp⟩
    rw [writeRow_eq]
    simp [rowHtml, cellHtml, List.append_assoc]
    rfl

/-- C2 (witness): a header of two fields followed by a body row of two fields,
the second a link: three `Read` calls and the whole table written. -/
theorem C2_rows_of_one_length_witness :
    renderTemplate defaultFlags
        (sampleEnv [record ["name", "url"], record ["a", "https://a.example"]])
      = some { err := none,
               written := ("<table><thead>"
                 ++ "<th><span class=\"header-cell-content\">name</span></th>"
                 ++ "<th><span class=\"header-cell-content\">url</span></th>"
                 ++ "</thead><tbody><tr><td>a</td>"
                 ++ "<td><a href=\"https://a.example\">https://a.example</a></td>"
                 ++ "</tr></tbody></table>").toList,
               opened := false, reads := 3 } :=
  (C2_rows_of_one_length defaultFlags
    (sampleEnv [record ["name", "url"], record ["a", "https://a.example"]])
    (fun _ => [record ["name", "url"], record ["a", "https://a.example"]]) false ','
    (record ["name", "url"]) [record ["a", "https://a.example"]] rfl (by decide)
    (by decide) rfl (by decide)).1 (by decide)

/-- C7: with the header flag on, once the input is open and the delimiter
accepted, (1) whenever the first `Read` fails, for whatever reason, the result
is the error with context "read header row" around that failure, nothing is
written, and this error differs from every "read row" error; (2) on an empty
input the first `Read` does fail, so the render is never successful. -/
theorem C7_header_read_failure (fl : Flags) (env : Env) (src : Source) (opened : Bool)
    (c : Char) (hheader : fl.header = true)
    (hopen : openInput fl env = (Except.ok src, opened))
    (hcomma : checkComma (resolveComma fl.inputFile fl.separator) = some c) :
    (∀ (r1 : Reader) (row : List GoString) (e : CsvError),
        ((NewReader src).setComma c).Read = (r1, row, some e) →
        renderTemplate fl env
            = some { err := some (RenderError.readHeaderRow e), written := [],
                     opened := opened, reads := 1 }
          ∧ ∀ e2, RenderError.readHeaderRow e ≠ RenderError.readRow e2)
      ∧ (src c = [] →
          ∃ e, renderTemplate fl env
            = some { err := some (RenderError.readHeaderRow e), written := [],
                     opened := opened, reads := 1 }) := by
  have key : ∀ (r1 : Reader) (row : List GoString) (e : CsvError),
      ((NewReader src).setComma c).Read = (r1, row, some e) →
      renderTemplate fl env
        = some { err := some (RenderError.readHeaderRow e), written := [],
                 opened := opened, reads := 1 } := by
    intro r1 row e hR
    have hc : r1.calls = 1 := by
      have := Read_calls ((NewReader src).setComma c)
      rw [hR] at this
      simpa [newReader_setComma] using this
    rw [renderTemplate_reading fl env src opened c hopen hcomma, hheader]
    simp only [readTable, readHeader, if_true, hR, hc]
  refine ⟨fun r1 row e hR => ⟨key r1 row e hR, fun e2 h => by cases h⟩, ?_⟩
  intro hempty
  cases hv : validDelim c with
  | true =>
    have hR := Read_eof
      { Comma := c, FieldsPerRecord := 0, src := src, pos := 0, calls := 0 } hv
      (by simp [hempty])
    exact ⟨CsvError.EOF, key _ [] _ (by rw [newReader_setComma]; exact hR)⟩
  | false =>
    have hR := Read_invalidDelim
      { Comma := c, FieldsPerRecord := 0, src := src, pos := 0, calls := 0 } hv
    exact ⟨CsvError.ErrInvalidDelim, key _ [] _ (by rw [newReader_setComma]; exact hR)⟩

/-- C7 (witness): the default flags on an empty standard input. -/
theorem C7_header_read_failure_witness :
    ∃ e, renderTemplate defaultFlags (sampleEnv [])
      = some { err := some (RenderError.readHeaderRow e), written := [], opened := false,
               reads := 1 } :=
  (C7_header_read_failure defaultFlags (sampleEnv []) (fun _ => []) false ',' rfl rfl
    (by decide)).2 rfl

/-- C8: once the input is open and the delimiter accepted, (1) whenever the
reading of the header and rows ends with an error, after however many `Read`
calls, `renderTemplate` returns that error and has written nothing; (2) so it
is for an input read with a delimiter the reader refuses, for an input holding
a record that fails to parse, and for an input holding a record whose field
count differs from the first one: the error has the context "read header row"
or "read row" and nothing is written. -/
theorem C8_read_failure_writes_nothing (fl : Flags) (env : Env) (src : Source)
    (opened : Bool) (c : Char)
    (hopen : openInput fl env = (Except.ok src, opened))
    (hcomma : checkComma (resolveComma fl.inputFile fl.separator) = some c) :
    (∀ (r1 : Reader) (e : RenderError),
        readTable fl.header ((NewReader src).setComma c) = some (r1, Except.error e) →
        renderTemplate fl env
          = some { err := some e, written := [], opened := opened, reads := r1.calls })
      ∧ ((validDelim c = false ∨ (∃ x ∈ src c, x.err ≠ none)
            ∨ (∃ first rest, src c = first :: rest ∧ 0 < first.fields.length
                ∧ ∃ x ∈ rest, x.fields.length ≠ first.fields.length)) →
          ∃ o k, renderTemplate fl env = some o ∧ o.written = []
            ∧ (o.err = some (RenderError.readHeaderRow k)
                ∨ (o.err = some (RenderError.readRow k) ∧ k ≠ CsvError.EOF))) := by
  have key : ∀ (r1 : Reader) (e : RenderError),
      readTable fl.header ((NewReader src).setComma c) = some (r1, Except.error e) →
      renderTemplate fl env
        = some { err := some e, written := [], opened := opened, reads := r1.calls } := by
    intro r1 e h
    rw [renderTemplate_reading fl env src opened c hopen hcomma, h]
  refine ⟨key, ?_⟩
  intro hfail
  have hex : ∃ r1 e, readTable fl.header ((NewReader src).setComma c)
      = some (r1, Except.error e) := by
    rcases hfail with hv | hbad | ⟨first, rest, hsrc, hpos, hrag⟩
    · exact readTable_invalidDelim fl.header src c hv
    · exact readTable_bad_record fl.header src c hbad
    · by_cases hbad : ∃ x ∈ src c, x.err ≠ none
      · exact readTable_bad_record fl.header src c hbad
      · by_cases hv : validDelim c = true
        · have hwf : ∀ x ∈ src c, x.err = none := by
            intro x hx
            by_contra hne
            exact hbad ⟨x, hx, hne⟩
          obtain ⟨r1, h1, -⟩ :=
            readTable_mismatch fl.header src c first rest hv hsrc hwf hpos hrag
          exact ⟨r1, _, h1⟩
        · exact readTable_invalidDelim fl.header src c (by simpa using hv)
  obtain ⟨r1, e, h⟩ := hex
  obtain ⟨k, hk⟩ := readTable_error_inv fl.header _ r1 e h
  refine ⟨_, k, key r1 e h, rfl, ?_⟩
  rcases hk with hk | ⟨hk, hne⟩
  · exact Or.inl (by rw [hk])
  · exact Or.inr ⟨by rw [hk], hne⟩

/-- C8 (witness): a header and a good row followed by a record that fails to
parse. -/
theorem C8_read_failure_writes_nothing_witness :
    ∃ o k, renderTemplate defaultFlags
          (sampleEnv [record ["name"], record ["a"],
            { fields := ["b".toList], err := some "bare quote".toList }]) = some o
      ∧ o.written = []
      ∧ (o.err = some (RenderError.readHeaderRow k)
          ∨ (o.err = some (RenderError.readRow k) ∧ k ≠ CsvError.EOF)) :=
  (C8_read_failure_writes_nothing defaultFlags
    (sampleEnv [record ["name"], record ["a"],
      { fields := ["b".toList], err := some "bare quote".toList }])
    (fun _ => [record ["name"], record ["a"],
      { fields := ["b".toList], err := some "bare quote".toList }]) false ',' rfl
    (by decide)).2 (Or.inr (Or.inl (by decide)))

/-- C10: (1) with the header flag on, for either setting of link detection,
the fragment opens with a `<thead>` section holding each header field `h` as
`<th><span class="header-cell-content">h</span></th>`, verbatim and never as
an anchor; (2) with the header flag off the fragment has no `<thead>` section
and no record is taken as header; (3) for a well-formed input of records of
one length, `renderTemplate` with the header flag on writes the fields of the
first record read as those header cells and the other records as body rows,
and with the header flag off it writes no `<thead>` and renders the first
record as the first body row. -/
theorem C10_header_cells (fl : Flags) (env : Env) (src : Source) (opened : Bool)
    (c : Char) (n : Nat)
    (hopen : openInput fl env = (Except.ok src, opened))
    (hcomma : checkComma (resolveComma fl.inputFile fl.separator) = some c)
    (hv : validDelim c = true)
    (hall : ∀ x ∈ src c, x.err = none ∧ x.fields.length = n) :
    (∀ (detectLinks : Bool) (headerRow : List GoString) (rows : List (List GoString)),
        buildTable true detectLinks headerRow rows
          = "<table><thead>".toList
              ++ (headerRow.map fun h =>
                  "<th><span class=\"header-cell-content\">".toList ++ h
                    ++ "</span></th>".toList).flatten
              ++ "</thead>".toList ++ bodyHtml detectLinks rows ++ "</table>".toList)
      ∧ (∀ (detectLinks : Bool) (headerRow : List GoString) (rows : List (List GoString)),
          buildTable false detectLinks headerRow rows
            = "<table>".toList ++ bodyHtml detectLinks rows ++ "</table>".toList)
      ∧ (∀ r : Reader, readHeader false r = (r, Except.ok []))
      ∧ (fl.header = true → ∀ (first : RawRecord) (rest : List RawRecord),
          src c = first :: rest →
          renderTemplate fl env
            = some (renderPage fl env
                ("<table><thead>".toList
                  ++ (first.fields.map fun h =>
                      "<th><span class=\"header-cell-content\">".toList ++ h
                        ++ "</span></th>".toList).flatten
                  ++ "</thead>".toList
                  ++ bodyHtml fl.detectLinks (rest.map RawRecord.fields)
                  ++ "</table>".toList)
                opened (rest.length + 2)))
      ∧ (fl.header = false →
          renderTemplate fl env
            = some (renderPage fl env
                ("<table>".toList
                  ++ bodyHtml fl.detectLinks ((src c).map RawRecord.fields)
                  ++ "</table>".toList)
                opened ((src c).length + 1))) := by
  have hth : ∀ (detectLinks : Bool) (headerRow : List GoString)
      (rows : List (List GoString)),
      buildTable true detectLinks headerRow rows
        = "<table><thead>".toList
            ++ (headerRow.map fun h =>
                "<th><span class=\"header-cell-content\">".toList ++ h
                  ++ "</span></th>".toList).flatten
            ++ "</thead>".toList ++ bodyHtml detectLinks rows ++ "</table>".toList := by
    intro detectLinks headerRow rows
    rw [buildTable_header]
    simp [List.append_assoc]
    rfl
  refine ⟨hth, ?_, ?_, ?_, ?_⟩
  · intro detectLinks headerRow rows
    exact buildTable_noHeader detectLinks headerRow rows
  · intro r
    simp [readHeader]
  · intro hheader first rest hsrc
    obtain ⟨r1, h1, h2⟩ := readTable_uniform_header src c n first rest hv hsrc hall
    rw [renderTemplate_reading fl env src opened c hopen hcomma, hheader, h1]
    simp only [h2, hsrc, List.length_cons, hth]
  · intro hheader
    obtain ⟨r1, h1, h2⟩ := readTable_uniform_noHeader src c n hv hall
    rw [renderTemplate_reading fl env src opened c hopen hcomma, hheader, h1]
    simp only [h2, buildTable_noHeader]

/-- C10 (witness): two records of two fields, the first of which starts with a
link.  With the header flag on the first record is written as header cells and
its link is not wrapped; with the header flag off there is no `<thead>` and
the first record is a body row whose link is wrapped. -/
theorem C10_header_cells_witness :
    renderTemplate defaultFlags
        (sampleEnv [record ["http://h.example", "x"], record ["a", "b"]])
      = some { err := none,
               written := ("<table><thead>"
                 ++ "<th><span class=\"header-cell-content\">http://h.example</span></th>"
                 ++ "<th><span class=\"header-cell-content\">x</span></th>"
                 ++ "</thead><tbody>"
                 ++ "<tr><td>a</td><td>b</td></tr>"
                 ++ "</tbody></table>").toList,
               opened := false, reads := 3 }
      ∧ renderTemplate { defaultFlags with header := false }
        (sampleEnv [record ["http://h.example", "x"], record ["a", "b"]])
      = some { err := none,
               written := ("<table><tbody>"
                 ++ "<tr><td><a href=\"http://h.example\">http://h.example</a></td>"
                 ++ "<td>x</td></tr>"
                 ++ "<tr><td>a</td><td>b</td></tr>"
                 ++ "</tbody></table>").toList,
               opened := false, reads := 3 } :=
  ⟨(C10_header_cells defaultFlags
      (sampleEnv [record ["http://h.example", "x"], record ["a", "b"]])
      (fun _ => [record ["http://h.example", "x"], record ["a", "b"]]) false ',' 2 rfl
      (by decide) (by decide) (by decide)).2.2.2.1 rfl
      (record ["http://h.example", "x"]) [record ["a", "b"]] rfl,
   (C10_header_cells { defaultFlags with header := false }
      (sampleEnv [record ["http://h.example", "x"], record ["a", "b"]])
      (fun _ => [record ["http://h.example", "x"], record ["a", "b"]]) false ',' 2 rfl
      (by decide) (by decide) (by decide)).2.2.2.2 rfl⟩

/-! ## The `/watch` loop -/

theorem watchRun_returned (evs : List WatchEvent) :
    watchRun WatchState.returned evs = (WatchState.returned, []) := by
  induction evs with
  | nil => rfl
  | cons ev evs ih => simp [watchRun, watchStep, ih]

/-- The loop from the watching state, one event at a time. -/
theorem watchRun_watching_cons (ev : WatchEvent) (evs : List WatchEvent) :
    watchRun WatchState.watching (ev :: evs)
      = match ev with
        | WatchEvent.change StatResult.notExist => watchRun WatchState.watching evs
        | WatchEvent.change (StatResult.failed _) =>
          (WatchState.returned, [Response.error500])
        | WatchEvent.change (StatResult.info size) =>
          if size = 0 then watchRun WatchState.watching evs
          else (WatchState.returned, [Response.ok])
        | WatchEvent.watcherError => (WatchState.returned, [Response.error500])
        | WatchEvent.done => (WatchState.returned, []) := by
  rcases ev with (_ | _ | size) | _ | _
  · simp [watchRun, watchStep]
  · simp [watchRun, watchStep, watchRun_returned]
  · by_cases hs : size = 0
    · simp [watchRun, watchStep, hs]
    · simp [watchRun, watchStep, hs, watchRun_returned]
  · simp [watchRun, watchStep, watchRun_returned]
  · simp [watchRun, watchStep, watchRun_returned]

theorem watchRun_count_ok (evs : List WatchEvent) :
    (watchRun WatchState.watching evs).2.count Response.ok ≤ 1 := by
  induction evs with
  | nil => simp [watchRun]
  | cons ev evs ih =>
    rw [watchRun_watching_cons]
    rcases ev with (_ | _ | size) | _ | _
    · exact ih
    · simp
    · by_cases hs : size = 0
      · simp [hs]
        exact ih
      · simp [hs]
    · simp
    · simp

theorem watchRun_ok_iff (evs : List WatchEvent) :
    Response.ok ∈ (watchRun WatchState.watching evs).2 ↔
      ∃ pre size post, evs = pre ++ WatchEvent.change (StatResult.info size) :: post
        ∧ size ≠ 0
        ∧ (∀ ev ∈ pre, ev = WatchEvent.change StatResult.notExist
            ∨ ev = WatchEvent.change (StatResult.info 0))
        ∧ watchRun WatchState.watching evs = (WatchState.returned, [Response.ok]) := by
  induction evs with
  | nil => simp [watchRun]
  | cons ev evs ih =>
    have quiet : (ev = WatchEvent.change StatResult.notExist
          ∨ ev = WatchEvent.change (StatResult.info 0)) →
        watchRun WatchState.watching (ev :: evs) = watchRun WatchState.watching evs := by
      rintro (rfl | rfl) <;> simp [watchRun_watching_cons]
    by_cases hq : ev = WatchEvent.change StatResult.notExist
        ∨ ev = WatchEvent.change (StatResult.info 0)
    · rw [quiet hq, ih]
      constructor
      · rintro ⟨pre, size, post, rfl, hs, hpre, hrun⟩
        refine ⟨ev :: pre, size, post, rfl, hs, ?_, hrun⟩
        intro x hx
        rcases List.mem_cons.mp hx with rfl | hx
        · exact hq
        · exact hpre x hx
      · rintro ⟨pre, size, post, heq, hs, hpre, hrun⟩
        cases pre with
        | nil =>
          simp at heq
          rcases hq with rfl | rfl
          · simp at heq
          · simp at heq
            exact absurd heq.1.symm hs
        | cons p pre =>
          simp at heq
          obtain ⟨rfl, rfl⟩ := heq
          exact ⟨pre, size, post, rfl, hs, fun x hx => hpre x (by simp [hx]), hrun⟩
    · rw [watchRun_watching_cons]
      rcases ev with (_ | m | size) | _ | _
      · exact absurd (Or.inl rfl) hq
      · simp
      · have hs : size ≠ 0 := by
          intro h
          exact hq (Or.inr (by rw [h]))
        simp [hs]
        exact ⟨[], size, ⟨evs, rfl⟩, hs, by simp⟩
      · simp
      · simp

/-- Events that find the file missing or empty leave the loop watching: the
run goes on with the events that follow. -/
theorem watchRun_quiet_append (pre rest : List WatchEvent)
    (hpre : ∀ ev ∈ pre, ev = WatchEvent.change StatResult.notExist
      ∨ ev = WatchEvent.change (StatResult.info 0)) :
    watchRun WatchState.watching (pre ++ rest) = watchRun WatchState.watching rest := by
  induction pre with
  | nil => rfl
  | cons p ps ih =>
    have hps := ih (fun ev hev => hpre ev (by simp [hev]))
    rcases hpre p (by simp) with rfl | rfl
    · rw [List.cons_append, watchRun_watching_cons]
      exact hps
    · rw [List.cons_append, watchRun_watching_cons]
      simpa using hps

/-- C9: the `/watch` handler over a sequence of events.  One iteration: a
change event whose stat reports the file missing, or present with size zero,
sends nothing and keeps watching; one whose stat fails otherwise ends with a
500 response; one on a file of non-zero size ends with `OK`; a watcher error
ends with a 500 response; a cancellation ends with nothing sent.  The handler
as a whole: after change events that all found the file missing or empty it is
still watching and has sent nothing; the next event then decides, whatever
follows it: a change on a file of non-zero size gives exactly `OK`, a failed
stat or a watcher error exactly one 500 response, a cancellation nothing; a
watcher that cannot be created or registered gives one 500 response.  Hence
over any sequence of events `OK` is sent at most once, and it is sent exactly
when the sequence has a change event on a file of non-zero size preceded only
by change events that found the file missing or empty. -/
theorem C9_watch_loop (pre post : List WatchEvent) (size : Int) (msg : GoString)
    (hpre : ∀ ev ∈ pre, ev = WatchEvent.change StatResult.notExist
      ∨ ev = WatchEvent.change (StatResult.info 0))
    (hsize : size ≠ 0) :
    (watchStep WatchState.watching (WatchEvent.change StatResult.notExist)
        = (WatchState.watching, [])
      ∧ (∀ size : Int, watchStep WatchState.watching (WatchEvent.change (StatResult.info size))
          = if size = 0 then (WatchState.watching, [])
            else (WatchState.returned, [Response.ok]))
      ∧ (∀ msg, watchStep WatchState.watching (WatchEvent.change (StatResult.failed msg))
          = (WatchState.returned, [Response.error500]))
      ∧ watchStep WatchState.watching WatchEvent.watcherError
          = (WatchState.returned, [Response.error500])
      ∧ watchStep WatchState.watching WatchEvent.done = (WatchState.returned, []))
      ∧ (watchHandler false false pre = (WatchState.watching, [])
        ∧ watchHandler false false (pre ++ WatchEvent.change (StatResult.info size) :: post)
          = (WatchState.returned, [Response.ok])
        ∧ watchHandler false false (pre ++ WatchEvent.change (StatResult.failed msg) :: post)
          = (WatchState.returned, [Response.error500])
        ∧ watchHandler false false (pre ++ WatchEvent.watcherError :: post)
          = (WatchState.returned, [Response.error500])
        ∧ watchHandler false false (pre ++ WatchEvent.done :: post)
          = (WatchState.returned, [])
        ∧ (∀ (addFails : Bool) (evs : List WatchEvent),
            watchHandler true addFails evs = (WatchState.returned, [Response.error500]))
        ∧ (∀ evs : List WatchEvent,
            watchHandler false true evs = (WatchState.returned, [Response.error500])))
      ∧ (∀ (newWatcherFails addFails : Bool) (evs : List WatchEvent),
          (watchHandler newWatcherFails addFails evs).2.count Response.ok ≤ 1)
      ∧ (∀ evs : List WatchEvent,
          Response.ok ∈ (watchHandler false false evs).2 ↔
            ∃ pre size post, evs = pre ++ WatchEvent.change (StatResult.info size) :: post
              ∧ size ≠ 0
              ∧ (∀ ev ∈ pre, ev = WatchEvent.change StatResult.notExist
                  ∨ ev = WatchEvent.change (StatResult.info 0))) := by
  have hrun : ∀ evs, watchHandler false false evs = watchRun WatchState.watching evs := by
    intro evs
    simp [watchHandler]
  have hafter : ∀ (pre : List WatchEvent) (ev : WatchEvent) (post : List WatchEvent),
      (∀ x ∈ pre, x = WatchEvent.change StatResult.notExist
        ∨ x = WatchEvent.change (StatResult.info 0)) →
      watchHandler false false (pre ++ ev :: post)
        = watchRun WatchState.watching (ev :: post) := by
    intro pre ev post h
    rw [hrun, watchRun_quiet_append pre (ev :: post) h]
  refine ⟨⟨rfl, ?_, fun _ => rfl, rfl, rfl⟩, ⟨?_, ?_, ?_, ?_, ?_, ?_, ?_⟩, ?_, ?_⟩
  · intro size
    by_cases hs : size = 0
    · simp [watchStep, hs]
    · simp [watchStep, hs]
  · have h := watchRun_quiet_append pre [] hpre
    rw [List.append_nil] at h
    rw [hrun, h]
    rfl
  · rw [hafter pre _ post hpre, watchRun_watching_cons]
    simp [hsize]
  · rw [hafter pre _ post hpre, watchRun_watching_cons]
  · rw [hafter pre _ post hpre, watchRun_watching_cons]
  · rw [hafter pre _ post hpre, watchRun_watching_cons]
  · intro addFails evs
    simp [watchHandler]
  · intro evs
    simp [watchHandler]
  · intro newWatcherFails addFails evs
    unfold watchHandler
    split_ifs
    · simp
    · simp
    · exact watchRun_count_ok evs
  · intro evs
    rw [hrun, watchRun_ok_iff]
    constructor
    · rintro ⟨p, sz, q, heq, hsz, hp, -⟩
      exact ⟨p, sz, q, heq, hsz, hp⟩
    · rintro ⟨p, sz, q, heq, hsz, hp⟩
      refine ⟨p, sz, q, heq, hsz, hp, ?_⟩
      rw [heq, watchRun_quiet_append p _ hp, watchRun_watching_cons]
      simp [hsz]

/-- C9 (witness): a change that finds the file missing, one that finds it
empty, then one that finds eight bytes; a further change is not answered. -/
theorem C9_watch_loop_witness :
    watchHandler false false
        [WatchEvent.change StatResult.notExist, WatchEvent.change (StatResult.info 0),
          WatchEvent.change (StatResult.info 8), WatchEvent.change (StatResult.info 9)]
      = (WatchState.returned, [Response.ok]) :=
  (C9_watch_loop
    [WatchEvent.change StatResult.notExist, WatchEvent.change (StatResult.info 0)]
    [WatchEvent.change (StatResult.info 9)] 8 [] (by decide) (by decide)).2.1.2.1

end Csv2Html
